import Mathlib

/-!
Verification of the Lua packet-processing pipeline module
(modules/pipeline_lua/module/src/pipeline_lua.c).

The embedding models the chunked upload / commit state machine, the
control-channel message listener and the per-packet invocation path of
the C source.  Interactions with the Lua runtime — compilation of a
payload via luaL_loadbuffer and top-level execution via lua_pcall — are
abstracted as an oracle giving the success/failure outcome for each
payload; everything the C code itself does (which payloads are handed to
the compiler, when the sandbox environment is bound, which error replies
are sent, how the pending buffer evolves) is recorded explicitly.
-/

namespace PipelineLua

abbrev Byte := Nat

/-- The OFP_BSN_LUA_UPLOAD_MORE flag bit tested by handle_lua_upload. -/
def OFP_BSN_LUA_UPLOAD_MORE : Nat := 1

/-- Object id of the of_bsn_lua_upload message.  The numeric value is an
opaque enum tag from the loci headers; only equality with it matters. -/
def OF_BSN_LUA_UPLOAD : Nat := 100

/-- Error type OF_ERROR_TYPE_BAD_REQUEST (opaque enum tag). -/
def OF_ERROR_TYPE_BAD_REQUEST : Nat := 1

/-- Error code OF_REQUEST_FAILED_EPERM, "not permitted" (opaque enum tag). -/
def OF_REQUEST_FAILED_EPERM : Nat := 1

/-- The struct upload_chunk record: a 64-byte of_str64_t filename, a
uint32_t size and the payload bytes (flexible array member). -/
structure Chunk where
  filename : List Byte
  size : Nat
  data : List Byte
deriving DecidableEq

/-- An of_bsn_lua_upload message as seen by the listener: object id,
payload octets, uint16 flags, of_str64_t filename. -/
structure UploadMsg where
  objectId : Nat
  data : List Byte
  flags : Nat
  filename : List Byte
deriving DecidableEq

/-- indigo_error_t, restricted to the constructors this module can return. -/
inductive IndigoError
  | NONE
  | UNKNOWN
deriving DecidableEq

/-- indigo_core_listener_result_t. -/
inductive ListenerResult
  | DROP
  | PASS
deriving DecidableEq

/-- Outcomes of the Lua runtime calls, abstracted: whether luaL_loadbuffer
(compilation) and the subsequent lua_pcall (top-level execution) succeed
on a given payload. -/
structure LuaOracle where
  compileOk : List Byte → Bool
  execOk : List Byte → Bool

/-- Observable actions of commit_lua_upload, in program order. -/
inductive Event
  | compileCall (data : List Byte) (filename : List Byte)
  | setSandboxEnv (data : List Byte)
  | execCall (data : List Byte)
  | errorReply (cxnId : Nat) (msg : UploadMsg) (etype : Nat) (ecode : Nat)
deriving DecidableEq

/-- The loop body of commit_lua_upload (lines 192-216): for each chunk in
arrival order, compile it as a named unit; on compile failure send one
error reply and goto cleanup; on success bind the sandbox environment to
the new unit, then execute it; on execution failure send one error reply
and goto cleanup.  Returns the event trace and whether the whole buffer
was processed without failure. -/
def commitLoop (o : LuaOracle) (cxnId : Nat) (msg : UploadMsg) :
    List Chunk → List Event × Bool
  | [] => ([], true)
  | c :: rest =>
    if o.compileOk c.data = false then
      ([Event.compileCall c.data c.filename,
        Event.errorReply cxnId msg OF_ERROR_TYPE_BAD_REQUEST OF_REQUEST_FAILED_EPERM],
       false)
    else if o.execOk c.data = false then
      ([Event.compileCall c.data c.filename, Event.setSandboxEnv c.data,
        Event.execCall c.data,
        Event.errorReply cxnId msg OF_ERROR_TYPE_BAD_REQUEST OF_REQUEST_FAILED_EPERM],
       false)
    else
      let r := commitLoop o cxnId msg rest
      (Event.compileCall c.data c.filename :: Event.setSandboxEnv c.data ::
         Event.execCall c.data :: r.1, r.2)

/-- cleanup_lua_upload: xbuf_reset(&upload_chunks) empties the buffer. -/
def cleanup_lua_upload : List Chunk := []

/-- Result of commit_lua_upload: the event trace, whether every chunk was
compiled and executed successfully, and the pending buffer afterwards. -/
structure CommitResult where
  events : List Event
  success : Bool
  buffer : List Chunk
deriving DecidableEq

/-- commit_lua_upload (lines 186-221): run the commit loop over the
buffered chunks; the cleanup label resetting the buffer is reached on
every path out (fallthrough and both goto cleanup paths). -/
def commit_lua_upload (o : LuaOracle) (cxnId : Nat) (msg : UploadMsg)
    (buffer : List Chunk) : CommitResult :=
  let r := commitLoop o cxnId msg buffer
  ⟨r.1, r.2, cleanup_lua_upload⟩

/-- The chunk a non-empty upload message is stored as: the filename is the
full 64-byte copy after the truncation filename[63] = 0, the size field is
the payload byte count, the data is the payload. -/
def chunkOf (msg : UploadMsg) : Chunk :=
  ⟨msg.filename.set 63 0, msg.data.length, msg.data⟩

/-- The append step of handle_lua_upload (lines 172-179): a chunk is
reserved and filled exactly when data.bytes > 0. -/
def appendChunk (msg : UploadMsg) (buffer : List Chunk) : List Chunk :=
  if msg.data.length > 0 then buffer ++ [chunkOf msg] else buffer

/-- Result of handle_lua_upload: the pending buffer afterwards, the commit
events (empty when no commit was triggered), and whether a commit ran. -/
structure HandleResult where
  buffer : List Chunk
  events : List Event
  committed : Bool
deriving DecidableEq

/-- handle_lua_upload (lines 156-184): truncate the filename, append a
chunk when the payload is non-empty, and trigger a commit exactly when
the MORE flag bit is clear. -/
def handle_lua_upload (o : LuaOracle) (cxnId : Nat) (msg : UploadMsg)
    (buffer : List Chunk) : HandleResult :=
  let buffer' := appendChunk msg buffer
  if msg.flags &&& OFP_BSN_LUA_UPLOAD_MORE = 0 then
    let r := commit_lua_upload o cxnId msg buffer'
    ⟨r.buffer, r.events, true⟩
  else
    ⟨buffer', [], false⟩

/-- message_listener (lines 229-240): the switch has exactly one
non-default case, OF_BSN_LUA_UPLOAD, which is forwarded to
handle_lua_upload and reported DROP; every other message is reported PASS
and left untouched.  The returned tuple is (listener result, buffer
afterwards, commit events, the message as passed on). -/
def message_listener (o : LuaOracle) (cxnId : Nat) (msg : UploadMsg)
    (buffer : List Chunk) :
    ListenerResult × List Chunk × List Event × UploadMsg :=
  if msg.objectId = OF_BSN_LUA_UPLOAD then
    let r := handle_lua_upload o cxnId msg buffer
    (ListenerResult.DROP, r.buffer, r.events, msg)
  else
    (ListenerResult.PASS, buffer, [], msg)

/-- Run a sequence of upload messages through handle_lua_upload,
accumulating the buffer state and concatenating the commit traces. -/
def runMessages (o : LuaOracle) (cxnId : Nat) :
    List UploadMsg → List Chunk → List Chunk × List Event
  | [], buffer => (buffer, [])
  | m :: ms, buffer =>
    let r := handle_lua_upload o cxnId m buffer
    let rest := runMessages o cxnId ms r.buffer
    (rest.1, r.events ++ rest.2)

/-- The payloads handed to luaL_loadbuffer, in order. -/
def compileCallPayloads : List Event → List (List Byte)
  | [] => []
  | Event.compileCall d _ :: rest => d :: compileCallPayloads rest
  | _ :: rest => compileCallPayloads rest

/-- The payloads whose compiled unit was executed via lua_pcall, in order. -/
def execCallPayloads : List Event → List (List Byte)
  | [] => []
  | Event.execCall d :: rest => d :: execCallPayloads rest
  | _ :: rest => execCallPayloads rest

/-- The indigo_cxn_send_error_reply calls, in order, with their arguments. -/
def errorReplyList : List Event → List (Nat × UploadMsg × Nat × Nat)
  | [] => []
  | Event.errorReply c m t e :: rest => (c, m, t, e) :: errorReplyList rest
  | _ :: rest => errorReplyList rest

/-- Decoded packet key (struct ind_ovs_parsed_key), kept opaque. -/
structure ParsedKey where
  raw : Nat
deriving DecidableEq

/-- The marshaled field structure filled by pipeline_lua_fields_from_key
(implemented outside this source file; kept opaque). -/
structure Fields where
  ofKey : Nat
deriving DecidableEq

/-- pipeline_lua_fields_from_key, abstracted: a function of the key. -/
def pipeline_lua_fields_from_key (key : ParsedKey) : Fields := ⟨key.raw⟩

/-- The static struct context shared with Lua: stats / action handles and
the marshaled fields. -/
structure Context where
  stats : Nat
  actx : Nat
  fields : Fields
deriving DecidableEq

/-- Log entries emitted on the per-packet path. -/
inductive LogEntry
  | scriptError
deriving DecidableEq

/-- pipeline_lua_process (lines 132-148): marshal the key into the static
context, install stats/action sinks, fetch process_ref and lua_pcall it;
when the call fails the error is logged and nothing else happens; the
return value is INDIGO_ERROR_NONE on every path.  procOk abstracts the
outcome of the script invocation. -/
def pipeline_lua_process (procOk : Bool) (key : ParsedKey)
    (stats actx : Nat) : IndigoError × Context × List LogEntry :=
  let ctx : Context := ⟨stats, actx, pipeline_lua_fields_from_key key⟩
  (IndigoError.NONE, ctx, if procOk then [] else [LogEntry.scriptError])

/-- An oracle that makes every compilation and execution succeed. -/
def oAll : LuaOracle := ⟨fun _ => true, fun _ => true⟩

/-- Payload bytes of the spec scenario fragment "function proc". -/
def fragA : List Byte := [102, 117, 110, 99, 116, 105, 111, 110, 32, 112, 114, 111, 99]

/-- Payload bytes of the spec scenario fragment "ess() end". -/
def fragB : List Byte := [101, 115, 115, 40, 41, 32, 101, 110, 100]

/-- A 64-byte filename used in concrete instances. -/
def fname0 : List Byte := List.replicate 64 97

/-- The spec-scenario first message: fragment "function proc", MORE set. -/
def msgMore : UploadMsg := ⟨OF_BSN_LUA_UPLOAD, fragA, OFP_BSN_LUA_UPLOAD_MORE, fname0⟩

/-- The spec-scenario second message: fragment "ess() end", MORE clear. -/
def msgLast : UploadMsg := ⟨OF_BSN_LUA_UPLOAD, fragB, 0, fname0⟩

/-- A terminal upload message with empty payload. -/
def msgEmptyLast : UploadMsg := ⟨OF_BSN_LUA_UPLOAD, [], 0, fname0⟩

/-- A non-upload control message. -/
def msgOther : UploadMsg := ⟨3, [5], 0, fname0⟩

/-- A concrete well-formed chunk. -/
def chA : Chunk := ⟨fname0, 2, [10, 11]⟩

/-- A second concrete well-formed chunk. -/
def chB : Chunk := ⟨fname0, 1, [7]⟩

/-- A chunk whose payload the oracle oFail rejects at compile time. -/
def chBad : Chunk := ⟨fname0, 1, [9]⟩

/-- An oracle that fails compilation exactly on payload [9]. -/
def oFail : LuaOracle := ⟨fun d => decide (d ≠ [9]), fun _ => true⟩

/-- Association-list environment: a Lua table of global bindings. -/
def lookupEnv : List (Nat × Nat) → Nat → Option Nat
  | [], _ => none
  | (k, v) :: rest, n => if k = n then some v else lookupEnv rest n

/-- Update or insert a global binding. -/
def setEnv : List (Nat × Nat) → Nat → Nat → List (Nat × Nat)
  | [], n, v => [(n, v)]
  | (k, w) :: rest, n, v =>
    if k = n then (n, v) :: rest else (k, w) :: setEnv rest n v

/-- A compiled unit's top-level behavior, abstracted to the sequence of
global reads and writes it performs. -/
inductive LuaOp
  | readG (n : Nat)
  | writeG (n : Nat) (v : Nat)
deriving DecidableEq

/-- Modelled from the spec: the Lua runtime's global-name resolution for a
compiled unit (the lua_setfenv semantics of the Lua runtime and the
builtin sandbox table are external to src/): every top-level global read
or write of the unit resolves through the unit's environment table,
producing the sequence of observed reads and the updated table. -/
def runChunkOps : List LuaOp → List (Nat × Nat) → List (Option Nat) × List (Nat × Nat)
  | [], env => ([], env)
  | LuaOp.readG n :: ops, env =>
    let r := runChunkOps ops env
    (lookupEnv env n :: r.1, r.2)
  | LuaOp.writeG n v :: ops, env => runChunkOps ops (setEnv env n v)

/-- Modelled from the spec: executing a compiled unit under the
lua_setfenv binding discipline.  With bound = some sandbox (the state the
commit loop establishes before lua_pcall) every global access goes through
the sandbox table and the unrestricted global table G is untouched; with
bound = none the unit would run directly against G.  Returns the observed
reads, the environment table afterwards and G afterwards. -/
def execChunkWithEnv (prog : List LuaOp) (bound : Option (List (Nat × Nat)))
    (G : List (Nat × Nat)) :
    List (Option Nat) × List (Nat × Nat) × List (Nat × Nat) :=
  match bound with
  | some sandbox =>
    let r := runChunkOps prog sandbox
    (r.1, r.2, G)
  | none =>
    let r := runChunkOps prog G
    (r.1, r.2, r.2)

/-- Checks that every lua_pcall of an uploaded chunk is immediately
preceded by the binding of that chunk's environment to the sandbox
(lua_getglobal "sandbox" + lua_setfenv). -/
def boundBeforeExec : List Event → Bool
  | [] => true
  | Event.setSandboxEnv d :: Event.execCall d' :: rest =>
    decide (d = d') && boundBeforeExec rest
  | Event.execCall _ :: _ => false
  | _ :: rest => boundBeforeExec rest

/-- Little-endian bytes of the uint32_t size field. -/
def le32 (n : Nat) : List Byte :=
  [n % 256, n / 256 % 256, n / 65536 % 256, n / 16777216 % 256]

/-- Read back a uint32_t from its four bytes. -/
def le32dec : List Byte → Nat
  | [a, b, c, d] => a + 256 * b + 65536 * c + 16777216 * d
  | _ => 0

/-- Byte layout of one struct upload_chunk record inside the xbuf:
64 filename bytes, 4 size bytes, then the payload
(sizeof(struct upload_chunk) = 68). -/
def serializeChunk (c : Chunk) : List Byte :=
  c.filename ++ le32 c.size ++ c.data

/-- The packed upload_chunks xbuf contents. -/
def serializeBuf : List Chunk → List Byte
  | [] => []
  | c :: cs => serializeChunk c ++ serializeBuf cs

/-- A chunk record as handle_lua_upload stores it: full 64-byte filename
copy, size field equal to the payload byte count and fitting uint32_t. -/
def wfChunk (c : Chunk) : Prop :=
  c.filename.length = 64 ∧ c.size = c.data.length ∧ c.size < 4294967296

instance (c : Chunk) : Decidable (wfChunk c) := by
  unfold wfChunk
  infer_instance

/-- The commit loop's offset walk over the packed buffer (lines 192-196):
read the struct upload_chunk record at the current offset and advance by
sizeof(*chunk) + chunk->size; none when the bytes do not split into whole
records. -/
def parseChunks (buf : List Byte) : Option (List Chunk) :=
  if _h1 : buf = [] then some []
  else if _h2 : buf.length < 68 then none
  else
    let size := le32dec ((buf.drop 64).take 4)
    if _h3 : buf.length - 68 < size then none
    else
      match parseChunks ((buf.drop 68).drop size) with
      | some tail => some (⟨buf.take 64, size, (buf.drop 68).take size⟩ :: tail)
      | none => none
termination_by buf.length
decreasing_by
  simp only [List.length_drop]
  omega

/- ------------------------------------------------------------------ -/
/- Theorems -/
/- ------------------------------------------------------------------ -/

/-- C1: for every decoded packet key and every outcome of the invoked
script entry point (including a runtime fault), pipeline_lua_process
returns INDIGO_ERROR_NONE; a fault is logged but never propagated. -/
theorem C1_process_always_success (procOk : Bool) (key : ParsedKey)
    (stats actx : Nat) :
    (pipeline_lua_process procOk key stats actx).1 = IndigoError.NONE ∧
    (pipeline_lua_process false key stats actx).2.2 = [LogEntry.scriptError] := by
  exact ⟨rfl, rfl⟩

/-- C3: after every commit attempt, success or failure at any chunk, the
pending upload buffer is empty; the reset runs on every path out of
commit, including when commit is reached from a terminal upload. -/
theorem C3_buffer_cleared (o : LuaOracle) (cxnId : Nat) (msg : UploadMsg)
    (buffer : List Chunk) :
    (commit_lua_upload o cxnId msg buffer).buffer = [] ∧
    (msg.flags &&& OFP_BSN_LUA_UPLOAD_MORE = 0 →
      (handle_lua_upload o cxnId msg buffer).buffer = []) := by
  refine ⟨rfl, fun h => ?_⟩
  simp [handle_lua_upload, h, commit_lua_upload, cleanup_lua_upload]

/-- C3 witness: concrete terminal message over a non-empty buffer. -/
theorem C3_buffer_cleared_witness :
    (commit_lua_upload oAll 5 msgLast [chA]).buffer = [] ∧
    (handle_lua_upload oAll 5 msgLast [chA]).buffer = [] :=
  ⟨(C3_buffer_cleared oAll 5 msgLast [chA]).1,
   (C3_buffer_cleared oAll 5 msgLast [chA]).2 (by decide)⟩

/-- Helper: the commit loop sends exactly one bad-request/eperm reply when
it fails and none when it succeeds. -/
theorem errorReplyList_commitLoop (o : LuaOracle) (cxnId : Nat)
    (msg : UploadMsg) (chunks : List Chunk) :
    errorReplyList (commitLoop o cxnId msg chunks).1 =
      (if (commitLoop o cxnId msg chunks).2 then []
       else [(cxnId, msg, OF_ERROR_TYPE_BAD_REQUEST, OF_REQUEST_FAILED_EPERM)]) := by
  induction chunks with
  | nil => simp [commitLoop, errorReplyList]
  | cons c rest ih =>
    by_cases hc : o.compileOk c.data = false
    · simp [commitLoop, hc, errorReplyList]
    · by_cases he : o.execOk c.data = false
      · simp [commitLoop, hc, he, errorReplyList]
      · simp [commitLoop, hc, he, errorReplyList, ih]

/-- C6: whenever a commit fails (compile failure or execution failure of
any chunk) exactly one error reply is sent, carrying the bad-request type,
the not-permitted code and the original connection/message context; a
successful commit sends none; execution failures produce the identical
reply as compile failures. -/
theorem C6_single_error_reply (o : LuaOracle) (cxnId : Nat)
    (msg : UploadMsg) (buffer : List Chunk) :
    errorReplyList (commit_lua_upload o cxnId msg buffer).events =
      (if (commit_lua_upload o cxnId msg buffer).success then []
       else [(cxnId, msg, OF_ERROR_TYPE_BAD_REQUEST, OF_REQUEST_FAILED_EPERM)]) := by
  simpa [commit_lua_upload] using
    errorReplyList_commitLoop o cxnId msg buffer

/-- C7: the listener handles exactly the upload message type: upload
messages are forwarded to handle_lua_upload and reported DROP; every other
message type is reported PASS with the buffer and the message unchanged. -/
theorem C7_listener_dispatch (o : LuaOracle) (cxnId : Nat) (msg : UploadMsg)
    (buffer : List Chunk) :
    ((message_listener o cxnId msg buffer).1 = ListenerResult.DROP ↔
        msg.objectId = OF_BSN_LUA_UPLOAD) ∧
    (msg.objectId = OF_BSN_LUA_UPLOAD →
      message_listener o cxnId msg buffer =
        (ListenerResult.DROP, (handle_lua_upload o cxnId msg buffer).buffer,
         (handle_lua_upload o cxnId msg buffer).events, msg)) ∧
    (msg.objectId ≠ OF_BSN_LUA_UPLOAD →
      message_listener o cxnId msg buffer =
        (ListenerResult.PASS, buffer, [], msg)) := by
  by_cases h : msg.objectId = OF_BSN_LUA_UPLOAD <;>
    simp [message_listener, h]

/-- C7 witness: a concrete upload message is dropped and a concrete other
message passes through unchanged. -/
theorem C7_listener_dispatch_witness :
    ((message_listener oAll 0 msgLast []).1 = ListenerResult.DROP ↔
        msgLast.objectId = OF_BSN_LUA_UPLOAD) ∧
    message_listener oAll 0 msgOther [] =
      (ListenerResult.PASS, [], [], msgOther) :=
  ⟨(C7_listener_dispatch oAll 0 msgLast []).1,
   (C7_listener_dispatch oAll 0 msgOther []).2.2 (by decide)⟩

/-- C4: during a commit, processing stops at the first chunk whose
compilation or top-level execution fails: the whole commit-loop outcome
over pre ++ c :: post (pre all succeeding, c failing) equals the outcome
over pre ++ [c] — so no chunk after the failing one is compiled or
executed — and the remaining buffered chunks are discarded. -/
theorem C4_stops_at_first_failure (o : LuaOracle) (cxnId : Nat)
    (msg : UploadMsg) (pre : List Chunk) (c : Chunk) (post : List Chunk)
    (hpre : ∀ x ∈ pre, o.compileOk x.data = true ∧ o.execOk x.data = true)
    (hc : o.compileOk c.data = false ∨ o.execOk c.data = false) :
    commitLoop o cxnId msg (pre ++ c :: post) =
      commitLoop o cxnId msg (pre ++ [c]) ∧
    (commit_lua_upload o cxnId msg (pre ++ c :: post)).buffer = [] := by
  refine ⟨?_, rfl⟩
  revert hpre
  induction pre with
  | nil =>
    intro _
    rcases hc with hc | hc
    · simp [commitLoop, hc]
    · by_cases hcomp : o.compileOk c.data = false
      · simp [commitLoop, hcomp]
      · simp only [Bool.not_eq_false] at hcomp
        simp [commitLoop, hcomp, hc]
  | cons p pre' ih =>
    intro hpre
    have hp := hpre p (by simp)
    have hrec := ih (fun x hx => hpre x (by simp [hx]))
    simp [commitLoop, hp.1, hp.2, hrec]

/-- C4 witness: with an oracle rejecting payload [9], the chunk after the
failing one is never processed and the buffer is discarded. -/
theorem C4_stops_at_first_failure_witness :
    commitLoop oFail 0 msgLast ([chA] ++ chBad :: [chB]) =
      commitLoop oFail 0 msgLast ([chA] ++ [chBad]) ∧
    (commit_lua_upload oFail 0 msgLast ([chA] ++ chBad :: [chB])).buffer = [] :=
  C4_stops_at_first_failure oFail 0 msgLast [chA] chBad [chB]
    (by decide) (Or.inl (by decide))

/-- C8: a ScriptChunk is appended iff the message payload is non-empty,
and the stored chunk's filename is the fixed 64-byte copy with byte 63
forced to 0, hence null-terminated within its 64-byte bound. -/
theorem C8_append_iff_nonempty (msg : UploadMsg) (buffer : List Chunk)
    (hlen : msg.filename.length = 64) :
    (msg.data.length > 0 →
      appendChunk msg buffer = buffer ++ [chunkOf msg] ∧
      (chunkOf msg).filename.length = 64 ∧
      (chunkOf msg).filename.getD 63 1 = 0) ∧
    (msg.data.length = 0 → appendChunk msg buffer = buffer) := by
  constructor
  · intro h
    have h63 : (63 : Nat) < msg.filename.length := by omega
    refine ⟨by simp [appendChunk, h], by simp [chunkOf, hlen], ?_⟩
    simp [chunkOf, List.getD_eq_getElem?_getD,
      List.getElem?_set_eq_of_lt _ h63]
  · intro h
    simp [appendChunk, h]

/-- C8 witness: a concrete non-empty upload is appended as one chunk with
a null-terminated 64-byte filename. -/
theorem C8_append_iff_nonempty_witness :
    appendChunk msgLast [] = [] ++ [chunkOf msgLast] ∧
    (chunkOf msgLast).filename.length = 64 ∧
    (chunkOf msgLast).filename.getD 63 1 = 0 :=
  (C8_append_iff_nonempty msgLast [] (by decide)).1 (by decide)

/-- C9: a message whose flags lack the MORE bit triggers a commit even
when its payload is empty — committing exactly the previously buffered
chunks — and a commit over an empty pending buffer compiles and executes
nothing, sends no error reply, and leaves the buffer empty. -/
theorem C9_empty_terminal_commits (o : LuaOracle) (cxnId : Nat)
    (msg : UploadMsg) (buffer : List Chunk)
    (hdata : msg.data = [])
    (hflags : msg.flags &&& OFP_BSN_LUA_UPLOAD_MORE = 0) :
    (handle_lua_upload o cxnId msg buffer).committed = true ∧
    (handle_lua_upload o cxnId msg buffer).events =
      (commit_lua_upload o cxnId msg buffer).events ∧
    (handle_lua_upload o cxnId msg []).events = [] ∧
    errorReplyList (handle_lua_upload o cxnId msg []).events = [] ∧
    (handle_lua_upload o cxnId msg []).buffer = [] := by
  simp [handle_lua_upload, appendChunk, hdata, hflags, commit_lua_upload,
    commitLoop, errorReplyList, cleanup_lua_upload]

/-- C9 witness: a concrete empty terminal message commits the buffered
chunk; over an empty buffer nothing is compiled and no reply is sent. -/
theorem C9_empty_terminal_commits_witness :
    (handle_lua_upload oAll 1 msgEmptyLast [chA]).committed = true ∧
    (handle_lua_upload oAll 1 msgEmptyLast [chA]).events =
      (commit_lua_upload oAll 1 msgEmptyLast [chA]).events ∧
    (handle_lua_upload oAll 1 msgEmptyLast []).events = [] ∧
    errorReplyList (handle_lua_upload oAll 1 msgEmptyLast []).events = [] ∧
    (handle_lua_upload oAll 1 msgEmptyLast []).buffer = [] :=
  C9_empty_terminal_commits oAll 1 msgEmptyLast [chA] rfl (by decide)

/-- Helper: over non-terminal messages (MORE set) the reassembler only
accumulates: the buffer grows by one chunk per non-empty payload, in
arrival order, and no commit events occur. -/
theorem runMessages_accumulating (o : LuaOracle) (cxnId : Nat)
    (ms : List UploadMsg) (buffer : List Chunk)
    (hms : ∀ m ∈ ms, m.flags &&& OFP_BSN_LUA_UPLOAD_MORE ≠ 0) :
    runMessages o cxnId ms buffer =
      (buffer ++ ms.filterMap
        (fun m => if m.data.length > 0 then some (chunkOf m) else none),
       []) := by
  induction ms generalizing buffer with
  | nil => simp [runMessages]
  | cons m ms ih =>
    have hm : ¬ (m.flags &&& OFP_BSN_LUA_UPLOAD_MORE = 0) := hms m (by simp)
    have hrec := ih (appendChunk m buffer) (fun x hx => hms x (by simp [hx]))
    rw [appendChunk] at hrec
    by_cases hd : m.data.length > 0
    · rw [if_pos hd] at hrec
      simp [runMessages, handle_lua_upload, hm, hrec, appendChunk, hd,
        List.filterMap_cons]
    · rw [if_neg hd] at hrec
      simp [runMessages, handle_lua_upload, hm, hrec, appendChunk, hd,
        List.filterMap_cons]

/-- Helper: runMessages splits over list append. -/
theorem runMessages_append (o : LuaOracle) (cxnId : Nat)
    (l1 l2 : List UploadMsg) (buffer : List Chunk) :
    runMessages o cxnId (l1 ++ l2) buffer =
      ((runMessages o cxnId l2 (runMessages o cxnId l1 buffer).1).1,
       (runMessages o cxnId l1 buffer).2 ++
         (runMessages o cxnId l2 (runMessages o cxnId l1 buffer).1).2) := by
  induction l1 generalizing buffer with
  | nil => simp [runMessages]
  | cons m l1 ih => simp [runMessages, ih]

/-- Helper: when every compilation and execution succeeds, the commit loop
hands each buffered chunk's payload to the compiler, and then to the
executor, separately and in arrival order. -/
theorem commitLoop_allOk_payloads (o : LuaOracle) (cxnId : Nat)
    (msg : UploadMsg) (chunks : List Chunk)
    (hok : ∀ d, o.compileOk d = true ∧ o.execOk d = true) :
    compileCallPayloads (commitLoop o cxnId msg chunks).1 =
      chunks.map (fun c => c.data) ∧
    execCallPayloads (commitLoop o cxnId msg chunks).1 =
      chunks.map (fun c => c.data) := by
  induction chunks with
  | nil => simp [commitLoop, compileCallPayloads, execCallPayloads]
  | cons c rest ih =>
    simp [commitLoop, (hok c.data).1, (hok c.data).2,
      compileCallPayloads, execCallPayloads, ih.1, ih.2]

/-- Helper: the payload stored in a chunk is the message payload. -/
theorem chunkOf_data (msg : UploadMsg) : (chunkOf msg).data = msg.data := rfl

/-- Helper: projecting the stored chunks back to their payloads. -/
theorem map_data_filterMap (ms : List UploadMsg) :
    (ms.filterMap
        (fun m => if m.data.length > 0 then some (chunkOf m) else none)).map
      (fun c => c.data) =
      ms.filterMap (fun m => if m.data.length > 0 then some m.data else none) := by
  induction ms with
  | nil => simp
  | cons m ms ih =>
    by_cases hd : m.data.length > 0 <;>
      simp [List.filterMap_cons, hd, ih, chunkOf_data]

/-- Helper: the payloads of the chunk list a terminal message commits. -/
theorem appendChunk_map_data (ms : List UploadMsg) (mT : UploadMsg) :
    (appendChunk mT
        (ms.filterMap
          (fun m => if m.data.length > 0 then some (chunkOf m) else none))).map
      (fun c => c.data) =
      (ms ++ [mT]).filterMap
        (fun m => if m.data.length > 0 then some m.data else none) := by
  by_cases hd : mT.data.length > 0 <;>
    simp [appendChunk, hd, List.filterMap_append, List.filterMap_cons,
      map_data_filterMap, chunkOf_data]

/-- Helper: the commit triggered by one terminal message over buffer B
compiles and executes, when the oracle always succeeds, exactly the
payloads of appendChunk mT B. -/
theorem session_payloads (o : LuaOracle) (cxnId : Nat) (B : List Chunk)
    (mT : UploadMsg)
    (hT : mT.flags &&& OFP_BSN_LUA_UPLOAD_MORE = 0)
    (hok : ∀ d, o.compileOk d = true ∧ o.execOk d = true) :
    compileCallPayloads (runMessages o cxnId [mT] B).2 =
      (appendChunk mT B).map (fun c => c.data) ∧
    execCallPayloads (runMessages o cxnId [mT] B).2 =
      (appendChunk mT B).map (fun c => c.data) := by
  simpa [runMessages, handle_lua_upload, hT, commit_lua_upload] using
    commitLoop_allOk_payloads o cxnId mT (appendChunk mT B) hok

/-- C2 counterexample: for the spec scenario session "function proc"
(MORE set) followed by "ess() end" (MORE clear, same filename), the commit
does not compile the byte-for-byte concatenation as one single unit: the
compiler is invoked once per chunk, on each chunk's own payload. -/
theorem C2_counterexample_not_one_unit :
    compileCallPayloads (runMessages oAll 0 [msgMore, msgLast] []).2 =
      [fragA, fragB] ∧
    compileCallPayloads (runMessages oAll 0 [msgMore, msgLast] []).2 ≠
      [fragA ++ fragB] := by
  exact ⟨by decide, by decide⟩

/-- C2 amended: for every session of N non-terminal chunks followed by one
terminal chunk, the committed code consists of each chunk's payload
byte-for-byte, compiled (and executed) as a separate named unit per chunk,
in arrival order; the payloads are not concatenated into one unit. -/
theorem C2_amended_per_chunk_units (o : LuaOracle) (cxnId : Nat)
    (ms : List UploadMsg) (mT : UploadMsg)
    (hms : ∀ m ∈ ms, m.flags &&& OFP_BSN_LUA_UPLOAD_MORE ≠ 0)
    (hT : mT.flags &&& OFP_BSN_LUA_UPLOAD_MORE = 0)
    (hok : ∀ d, o.compileOk d = true ∧ o.execOk d = true) :
    compileCallPayloads (runMessages o cxnId (ms ++ [mT]) []).2 =
      (ms ++ [mT]).filterMap
        (fun m => if m.data.length > 0 then some m.data else none) ∧
    execCallPayloads (runMessages o cxnId (ms ++ [mT]) []).2 =
      (ms ++ [mT]).filterMap
        (fun m => if m.data.length > 0 then some m.data else none) := by
  have hrun := runMessages_accumulating o cxnId ms [] hms
  have hsess := session_payloads o cxnId
    (ms.filterMap (fun m => if m.data.length > 0 then some (chunkOf m) else none))
    mT hT hok
  have hmap := appendChunk_map_data ms mT
  rw [runMessages_append o cxnId ms [mT] [], hrun]
  dsimp only
  simp only [List.nil_append]
  exact ⟨hsess.1.trans hmap, hsess.2.trans hmap⟩

/-- C2 amended witness: the concrete two-chunk spec-scenario session. -/
theorem C2_amended_per_chunk_units_witness :
    compileCallPayloads (runMessages oAll 2 ([msgMore] ++ [msgLast]) []).2 =
      ([msgMore] ++ [msgLast]).filterMap
        (fun m => if m.data.length > 0 then some m.data else none) ∧
    execCallPayloads (runMessages oAll 2 ([msgMore] ++ [msgLast]) []).2 =
      ([msgMore] ++ [msgLast]).filterMap
        (fun m => if m.data.length > 0 then some m.data else none) :=
  C2_amended_per_chunk_units oAll 2 [msgMore] msgLast
    (by decide) (by decide) (fun _ => ⟨rfl, rfl⟩)

/-- C5: every executed chunk in a commit has its environment bound to the
sandbox immediately before its top-level execution (from the source), and
— under the spec-modelled binding semantics — sandbox-bound code neither
observes nor mutates bindings of the unrestricted namespace: the
unrestricted table is returned unchanged, the observed reads are
independent of it, and a name bound only there reads as none. -/
theorem C5_sandbox_binding_isolation (o : LuaOracle) (cxnId : Nat)
    (msg : UploadMsg) (chunks : List Chunk) (prog : List LuaOp)
    (sandbox G G' : List (Nat × Nat)) (n : Nat)
    (hn : lookupEnv sandbox n = none) :
    boundBeforeExec (commitLoop o cxnId msg chunks).1 = true ∧
    (execChunkWithEnv prog (some sandbox) G).2.2 = G ∧
    (execChunkWithEnv prog (some sandbox) G).1 =
      (execChunkWithEnv prog (some sandbox) G').1 ∧
    (execChunkWithEnv [LuaOp.readG n] (some sandbox) G).1 = [none] := by
  refine ⟨?_, rfl, rfl, ?_⟩
  · induction chunks with
    | nil => simp [commitLoop, boundBeforeExec]
    | cons c rest ih =>
      by_cases hc : o.compileOk c.data = false
      · simp [commitLoop, hc, boundBeforeExec]
      · by_cases he : o.execOk c.data = false
        · simp [commitLoop, hc, he, boundBeforeExec]
        · simp [commitLoop, hc, he, boundBeforeExec, ih]
  · simp [execChunkWithEnv, runChunkOps, hn]

/-- C5 witness: a concrete commit, plus a sandbox lacking the name 2 that
only the unrestricted table binds: executing a read of 2 under the sandbox
observes none and leaves the unrestricted table unchanged. -/
theorem C5_sandbox_binding_isolation_witness :
    boundBeforeExec (commitLoop oAll 0 msgLast [chA]).1 = true ∧
    (execChunkWithEnv [LuaOp.readG 2] (some [(1, 5)]) [(2, 9)]).2.2 = [(2, 9)] ∧
    (execChunkWithEnv [LuaOp.readG 2] (some [(1, 5)]) [(2, 9)]).1 =
      (execChunkWithEnv [LuaOp.readG 2] (some [(1, 5)]) [(7, 8)]).1 ∧
    (execChunkWithEnv [LuaOp.readG 2] (some [(1, 5)]) [(2, 9)]).1 = [none] :=
  C5_sandbox_binding_isolation oAll 0 msgLast [chA] [LuaOp.readG 2]
    [(1, 5)] [(2, 9)] [(7, 8)] 2 (by decide)

/-- Helper: uint32_t roundtrip for the size field. -/
theorem le32dec_le32 (n : Nat) (h : n < 4294967296) :
    le32dec (le32 n) = n := by
  simp only [le32, le32dec]
  omega

/-- Helper: the offset walk recovers exactly the serialized chunk records,
in order. -/
theorem parseChunks_serializeBuf (chunks : List Chunk)
    (hw : ∀ c ∈ chunks, wfChunk c) :
    parseChunks (serializeBuf chunks) = some chunks := by
  induction chunks with
  | nil => simp [serializeBuf, parseChunks]
  | cons c cs ih =>
    obtain ⟨hf, hs, hlt⟩ := hw c (by simp)
    have ihc := ih (fun x hx => hw x (by simp [hx]))
    have hAB : (c.filename ++ le32 c.size).length = 68 := by
      simp [hf, le32]
    have hlen : (serializeBuf (c :: cs)).length =
        68 + c.data.length + (serializeBuf cs).length := by
      simp [serializeBuf, serializeChunk, hf, le32]
      omega
    have hne : serializeBuf (c :: cs) ≠ [] := by
      intro h
      rw [h] at hlen
      simp only [List.length_nil] at hlen
      omega
    have h68 : ¬ (serializeBuf (c :: cs)).length < 68 := by omega
    have hdrop64 : (serializeBuf (c :: cs)).drop 64 =
        le32 c.size ++ (c.data ++ serializeBuf cs) := by
      have hshape : serializeBuf (c :: cs) =
          c.filename ++ (le32 c.size ++ (c.data ++ serializeBuf cs)) := by
        simp [serializeBuf, serializeChunk]
      rw [hshape, List.drop_left' hf]
    have htake64 : (serializeBuf (c :: cs)).take 64 = c.filename := by
      have hshape : serializeBuf (c :: cs) =
          c.filename ++ (le32 c.size ++ (c.data ++ serializeBuf cs)) := by
        simp [serializeBuf, serializeChunk]
      rw [hshape, List.take_left' hf]
    have hdrop68 : (serializeBuf (c :: cs)).drop 68 =
        c.data ++ serializeBuf cs := by
      have hshape : serializeBuf (c :: cs) =
          (c.filename ++ le32 c.size) ++ (c.data ++ serializeBuf cs) := by
        simp [serializeBuf, serializeChunk]
      rw [hshape, List.drop_left' hAB]
    rw [parseChunks, dif_neg hne, dif_neg h68]
    simp only [hdrop64, hdrop68, htake64,
      List.take_left' (show (le32 c.size).length = 4 from rfl),
      le32dec_le32 c.size hlt]
    rw [dif_neg (show ¬ ((serializeBuf (c :: cs)).length - 68 < c.size) by omega)]
    simp only [List.take_left' hs.symm, List.drop_left' hs.symm, ihc]

/-- C10: every chunk the reassembler appends records a size field equal to
its payload's byte length together with a full 64-byte filename copy
(wfChunk is preserved), and the commit loop's offset arithmetic —
advancing by sizeof(struct upload_chunk) + size over the packed bytes —
visits exactly the appended chunk records, once each, in arrival order. -/
theorem C10_offset_walk_visits_in_order (msg : UploadMsg)
    (buffer chunks : List Chunk)
    (hw : ∀ c ∈ chunks, wfChunk c)
    (hb : ∀ c ∈ buffer, wfChunk c)
    (hf : msg.filename.length = 64)
    (hd : msg.data.length < 4294967296) :
    parseChunks (serializeBuf chunks) = some chunks ∧
    (∀ c ∈ appendChunk msg buffer, wfChunk c) := by
  refine ⟨parseChunks_serializeBuf chunks hw, ?_⟩
  intro c hc
  by_cases hnz : msg.data.length > 0
  · rw [appendChunk, if_pos hnz] at hc
    rcases List.mem_append.mp hc with h | h
    · exact hb c h
    · simp only [List.mem_singleton] at h
      subst h
      exact ⟨by simp [chunkOf, hf], rfl, hd⟩
  · rw [appendChunk, if_neg hnz] at hc
    exact hb c hc

/-- C10 witness: a concrete two-record buffer is walked back into exactly
its two chunks, and a concrete append preserves well-formedness. -/
theorem C10_offset_walk_visits_in_order_witness :
    parseChunks (serializeBuf [chA, chB]) = some [chA, chB] ∧
    (∀ c ∈ appendChunk msgLast [chA], wfChunk c) :=
  C10_offset_walk_visits_in_order msgLast [chA] [chA, chB]
    (by decide) (by decide) (by decide) (by decide)

end PipelineLua
